import Mathlib

/-!
# Verification of `copilot-cli` against its specification

Shallow embedding of the `copilot_cli` Python package (files
`copilot_cli/copilot.py` and `copilot_cli/main.py`).  Effectful
operations (HTTP requests, subprocess execution, filesystem access)
are modelled as explicit oracle parameters, and the HTTP calls a client
operation performs are returned as an explicit trace.
-/

namespace CopilotCLI

/-! ## Stream decoding (`GithubCopilotClient.stream_chat_completion`, copilot.py lines 268-279)

A server-sent line is modelled as a `String` (UTF-8 decoding of the raw
bytes).  `json.loads` of a data line's payload is modelled as an oracle
`parse : String → StreamChunk`; the claims under scrutiny only concern
well-formed payloads, for which `json.loads` succeeds. -/

/-- One streamed delta object: `chunk["choices"][0]["delta"]`.
`content` is `delta.get("content")`; `none` models both an absent
`"content"` key and a JSON `null`. -/
structure Delta where
  content : Option String
  deriving Repr, DecidableEq

/-- One element of `chunk["choices"]`.  `delta = none` models a choice
object without a `"delta"` key (the code tests `"delta" in chunk["choices"][0]`). -/
structure StreamChoice where
  delta : Option Delta
  deriving Repr, DecidableEq

/-- A parsed stream chunk: `{"choices": [...]}`. -/
structure StreamChunk where
  choices : List StreamChoice
  deriving Repr, DecidableEq

/-- `bytes.startswith`, on the character-list view of a string. -/
def strStartsWith (s p : String) : Bool :=
  p.data.isPrefixOf s.data

/-- `line[6:]`: drop the first `n` characters. -/
def strDrop (s : String) (n : Nat) : String :=
  String.mk (s.data.drop n)

/-- The content the loop body of `stream_chat_completion` yields for a parsed
chunk, if any: requires a non-empty `choices` list, a `"delta"` key on the
first choice, and truthy (non-`None`, non-empty) content. -/
def yieldOfChunk (chunk : StreamChunk) : Option String :=
  match chunk.choices with
  | [] => none
  | c :: _ =>
    match c.delta with
    | none => none
    | some d =>
      match d.content with
      | none => none
      | some content => if content = "" then none else some content

/-- The decode loop of `stream_chat_completion` (copilot.py lines 268-279)
over the lines of the response body: empty lines and lines not starting with
`"data: "` are skipped, the payload `"[DONE]"` breaks out of the loop, and
any other payload is parsed and its delta content yielded when truthy. -/
def streamDecode (parse : String → StreamChunk) : List String → List String
  | [] => []
  | line :: rest =>
    if line = "" then
      streamDecode parse rest
    else if strStartsWith line "data: " then
      let json_str := strDrop line 6
      if json_str = "[DONE]" then
        []
      else
        match yieldOfChunk (parse json_str) with
        | some content => content :: streamDecode parse rest
        | none => streamDecode parse rest
    else
      streamDecode parse rest

/-- A line that enters the parsing branch: starts with the event marker. -/
def isDataLine (line : String) : Bool :=
  strStartsWith line "data: "

/-- A line whose payload is the terminal sentinel. -/
def isDoneLine (line : String) : Bool :=
  strStartsWith line "data: " && strDrop line 6 = "[DONE]"

/-- The textual content of the (first choice's) delta of a chunk, reading
an absent choice/delta/content as the empty string. -/
def chunkContent (chunk : StreamChunk) : String :=
  match chunk.choices with
  | [] => ""
  | c :: _ =>
    match c.delta with
    | none => ""
    | some d => d.content.getD ""

/-- Concatenation of a list of string fragments. -/
def joinFragments : List String → String
  | [] => ""
  | s :: rest => s ++ joinFragments rest

/-- A concrete `json.loads` oracle for witnesses: payload `"a"` parses to a
chunk whose delta content is `"Hello"`, payload `"b"` to one with empty
content, anything else to a chunk with no choices. -/
def wParse : String → StreamChunk := fun s =>
  if s = "a" then ⟨[⟨some ⟨some "Hello"⟩⟩]⟩
  else if s = "b" then ⟨[⟨some ⟨some ""⟩⟩]⟩
  else ⟨[]⟩

/-! ## Tokens, client state and HTTP effects (`copilot.py`)

HTTP requests are modelled by oracle parameters giving each request's
outcome, and every client operation returns the list of HTTP calls it
performed, in order.  `requests` exceptions are modelled by
`RequestException`; the package's exception classes by `APIError` and
`AuthenticationError`. -/

/-- The `CopilotToken` pydantic model (copilot.py lines 42-71).
`endpoints` (a JSON object) is modelled as an association list;
`enterprise_list` is optional with default `None`. -/
structure CopilotToken where
  token : String
  expires_at : Int
  refresh_in : Int
  endpoints : List (String × String)
  tracking_id : String
  sku : String
  annotations_enabled : Bool
  chat_enabled : Bool
  chat_jetbrains_enabled : Bool
  code_quote_enabled : Bool
  codesearch : Bool
  copilotignore_enabled : Bool
  individual : Bool
  prompt_8k : Bool
  snippy_load_test_enabled : Bool
  xcode : Bool
  xcode_chat : Bool
  public_suggestions : String
  telemetry : String
  enterprise_list : Option (List Int) := none
  code_review_enabled : Bool
  deriving Repr, DecidableEq

/-- A `requests.exceptions.RequestException`, carrying its message. -/
structure RequestException where
  msg : String
  deriving Repr, DecidableEq

/-- The package's `APIError` exception. -/
structure APIError where
  msg : String
  deriving Repr, DecidableEq

/-- The package's `AuthenticationError` exception. -/
structure AuthenticationError where
  msg : String
  deriving Repr, DecidableEq

/-- An exception escaping a client operation: the `APIError` and
`AuthenticationError` raised by the code, plus the `IndexError` that
`chat_response["choices"][0]` raises on an empty choices list. -/
inductive ClientError where
  | api : APIError → ClientError
  | auth : AuthenticationError → ClientError
  | indexError : ClientError
  deriving Repr, DecidableEq

/-- The `ChatMessage` TypedDict (copilot.py lines 74-76). -/
structure ChatMessage where
  role : String
  content : String
  deriving Repr, DecidableEq

/-- The `ChatChoice` TypedDict (copilot.py lines 79-80). -/
structure ChatChoice where
  message : ChatMessage
  deriving Repr, DecidableEq

/-- The `ChatResponse` TypedDict (copilot.py lines 83-84). -/
structure ChatResponse where
  choices : List ChatChoice
  deriving Repr, DecidableEq

/-- The JSON body of a chat request (copilot.py lines 207-214 / 255-262). -/
structure ChatBody where
  messages : List ChatMessage
  model : String
  stream : Bool
  deriving Repr, DecidableEq

/-- The body built by `chat_completion` / `stream_chat_completion`:
a system message followed by the user message. -/
def mkChatBody (prompt mdl system_prompt : String) (stream : Bool) : ChatBody :=
  { messages := [⟨"system", system_prompt⟩, ⟨"user", prompt⟩],
    model := mdl, stream := stream }

/-- One HTTP request made by the client: the token-exchange GET
(`APIEndpoints.TOKEN`) or a chat-completion POST (`APIEndpoints.CHAT`). -/
inductive HttpCall where
  | tokenGet : HttpCall
  | chatPost : ChatBody → HttpCall
  deriving Repr, DecidableEq

/-- Whether an HTTP call is a chat-completion POST. -/
def isChatPost : HttpCall → Bool
  | .chatPost _ => true
  | .tokenGet => false

/-- Whether an `Except` value is a success. -/
def exceptIsOk : Except ε α → Bool
  | .ok _ => true
  | .error _ => false

/-- The mutable fields of `GithubCopilotClient` relevant to the claims,
plus the on-disk token cache `/tmp/copilot_token.json`, modelled abstractly
as the token it currently serialises (if any). -/
structure ClientState where
  oauth_token : Option String
  copilot_token : Option CopilotToken
  cacheFile : Option CopilotToken
  deriving Repr, DecidableEq

/-! ## OAuth credential loading (`HostsData.from_file`, `_load_oauth_token`) -/

/-- Substring containment on character lists, used for Python's
`"github.com" in key`. -/
def listContainsSub (sub : List Char) : List Char → Bool
  | [] => sub.isEmpty
  | c :: cs => sub.isPrefixOf (c :: cs) || listContainsSub sub cs

/-- Python's `sub in s` substring test. -/
def strContains (s sub : String) : Bool :=
  listContainsSub sub.data s.data

/-- One of the two candidate credential files (`hosts.json`, `apps.json`):
missing from disk, present but not valid JSON, or a parsed JSON object.
Each entry's value is modelled by its `"oauth_token"` field
(`none` when the key is missing, which makes `value["oauth_token"]`
raise `KeyError`). -/
inductive HostsFile where
  | absent : HostsFile
  | unparsable : HostsFile
  | parsed : List (String × Option String) → HostsFile
  deriving Repr, DecidableEq

/-- `HostsData.from_file` (copilot.py lines 20-26) after `json.loads`
succeeded: scan the object's entries in order; on the first key containing
`"github.com"`, build `HostsData` from the value's `oauth_token`
(`KeyError` if absent, modelled as `.error`); if no key matches, the
Python function falls off the loop and returns `None` (`.ok none`). -/
def from_file : List (String × Option String) → Except Unit (Option String)
  | [] => .ok none
  | (key, value) :: rest =>
    if strContains key "github.com" then
      match value with
      | some tok => .ok (some tok)
      | none => .error ()
    else
      from_file rest

/-- `_load_oauth_token` (copilot.py lines 112-130): walk the candidate
files in order; skip missing files; a `JSONDecodeError` or `KeyError`
while reading a present file raises
`AuthenticationError("GitHub Copilot configuration not found or invalid.")`;
a file yielding a truthy token returns it; a falsy result moves on to the
next file; exhausting the list raises
`AuthenticationError("OAuth token not found in GitHub Copilot configuration.")`. -/
def load_oauth_token : List HostsFile → Except AuthenticationError String
  | [] => .error ⟨"OAuth token not found in GitHub Copilot configuration."⟩
  | f :: rest =>
    match f with
    | .absent => load_oauth_token rest
    | .unparsable => .error ⟨"GitHub Copilot configuration not found or invalid."⟩
    | .parsed hosts_data =>
      match from_file hosts_data with
      | .error _ => .error ⟨"GitHub Copilot configuration not found or invalid."⟩
      | .ok none => load_oauth_token rest
      | .ok (some tok) =>
        if tok = "" then load_oauth_token rest else .ok tok

/-- `_get_oauth_token` (copilot.py lines 132-139): return the in-memory
OAuth token when truthy, otherwise load and memoise it. -/
def get_oauth_token (files : List HostsFile) (st : ClientState) :
    Except AuthenticationError (String × ClientState) :=
  match st.oauth_token with
  | some tok =>
    if tok = "" then
      match load_oauth_token files with
      | .error e => .error e
      | .ok t => .ok (t, { st with oauth_token := some t })
    else .ok (tok, st)
  | none =>
    match load_oauth_token files with
    | .error e => .error e
    | .ok t => .ok (t, { st with oauth_token := some t })

/-- A present credentials file is parsed and has no key containing
`"github.com"` (absent files are allowed). -/
def parsedWithoutGithubKey : HostsFile → Bool
  | .absent => true
  | .unparsable => false
  | .parsed hosts_data =>
    hosts_data.all (fun kv => !(strContains kv.1 "github.com"))

/-! ## Token exchange (`_refresh_copilot_token`, `_ensure_valid_token`) -/

/-- `_refresh_copilot_token` (copilot.py lines 141-163).  Header
construction evaluates `_get_oauth_token()`, so a missing credential
raises `AuthenticationError` before any HTTP request.  The GET against the
token endpoint (together with `raise_for_status` and response parsing) is
modelled by the oracle `getResult`; on success the token is stored and
cached to `/tmp/copilot_token.json` (overwriting), on `RequestException`
an `APIError` is raised — after the GET was performed. -/
def refresh_copilot_token (files : List HostsFile)
    (getResult : Except RequestException CopilotToken) (st : ClientState) :
    Except ClientError ClientState × List HttpCall :=
  match get_oauth_token files st with
  | .error e => (.error (.auth e), [])
  | .ok (_, st1) =>
    match getResult with
    | .ok tok =>
      (.ok { st1 with copilot_token := some tok, cacheFile := some tok },
       [.tokenGet])
    | .error e =>
      (.error (.api ⟨"Failed to refresh Copilot token: " ++ e.msg⟩),
       [.tokenGet])

/-- The refresh condition of `_ensure_valid_token` (copilot.py line 172):
`not self._copilot_token or current_time >= self._copilot_token.expires_at`. -/
def needsRefresh (now : Int) : Option CopilotToken → Bool
  | none => true
  | some t => decide (now ≥ t.expires_at)

/-- `_ensure_valid_token` (copilot.py lines 165-176): refresh when the
token is absent or expired; afterwards raise `AuthenticationError` if no
token is held. -/
def ensure_valid_token (now : Int) (files : List HostsFile)
    (getResult : Except RequestException CopilotToken) (st : ClientState) :
    Except ClientError ClientState × List HttpCall :=
  if needsRefresh now st.copilot_token then
    match refresh_copilot_token files getResult st with
    | (.error e, calls) => (.error e, calls)
    | (.ok st1, calls) =>
      match st1.copilot_token with
      | none => (.error (.auth ⟨"Failed to obtain Copilot token"⟩), calls)
      | some _ => (.ok st1, calls)
  else
    match st.copilot_token with
    | none => (.error (.auth ⟨"Failed to obtain Copilot token"⟩), [])
    | some _ => (.ok st, [])

/-! ## Chat completion (`chat_completion`, `stream_chat_completion`) -/

/-- `chat_completion` (copilot.py lines 178-224): ensure a valid token,
then POST the chat body once.  The POST (with `raise_for_status` and
`response.json()`) is modelled by the oracle `postResult`; a
`RequestException` becomes an `APIError`, and the first choice's message
content is returned (`IndexError` on an empty choices list). -/
def chat_completion (now : Int) (files : List HostsFile)
    (getResult : Except RequestException CopilotToken)
    (postResult : Except RequestException ChatResponse) (st : ClientState)
    (prompt mdl system_prompt : String) :
    Except ClientError String × List HttpCall :=
  match ensure_valid_token now files getResult st with
  | (.error e, calls) => (.error e, calls)
  | (.ok _, calls) =>
    let body := mkChatBody prompt mdl system_prompt false
    match postResult with
    | .error e =>
      (.error (.api ⟨"Chat completion request failed: " ++ e.msg⟩),
       calls ++ [.chatPost body])
    | .ok resp =>
      match resp.choices with
      | [] => (.error .indexError, calls ++ [.chatPost body])
      | c :: _ => (.ok c.message.content, calls ++ [.chatPost body])

/-- `stream_chat_completion` (copilot.py lines 226-282): ensure a valid
token, then POST the chat body once with `stream=True`.  A successful POST
yields the response's lines, decoded by the loop modelled in
`streamDecode`; a `RequestException` becomes an `APIError`. -/
def stream_chat_completion (now : Int) (files : List HostsFile)
    (getResult : Except RequestException CopilotToken)
    (postResult : Except RequestException (List String))
    (parse : String → StreamChunk) (st : ClientState)
    (prompt mdl system_prompt : String) :
    Except ClientError (List String) × List HttpCall :=
  match ensure_valid_token now files getResult st with
  | (.error e, calls) => (.error e, calls)
  | (.ok _, calls) =>
    let body := mkChatBody prompt mdl system_prompt true
    match postResult with
    | .error e =>
      (.error (.api ⟨"Streaming chat completion request failed: " ++ e.msg⟩),
       calls ++ [.chatPost body])
    | .ok lines =>
      (.ok (streamDecode parse lines), calls ++ [.chatPost body])

/-! ## Token cache loading (`_load_cached_token`, `__init__`) -/

/-- Outcome of `json.loads` followed by `CopilotToken(**token_data)` on the
cache file's contents: success; `json.JSONDecodeError` (contents are not
JSON); `TypeError` (the decoded value is not a mapping, so `**` fails);
or a pydantic `ValidationError` (a mapping with missing or ill-typed
fields) — the code catches only the first two. -/
inductive CacheParse where
  | ok : CopilotToken → CacheParse
  | jsonDecodeError : CacheParse
  | typeError : CacheParse
  | validationError : CacheParse
  deriving Repr, DecidableEq

/-- `_load_cached_token` (copilot.py lines 100-110), returning the loaded
token (if any) and the cache file's contents after the call (`none` when
the file was absent or deleted by `unlink`).  An uncaught
`ValidationError` is `.error`. -/
def load_cached_token (parse : String → CacheParse) :
    Option String → Except Unit (Option CopilotToken × Option String)
  | none => .ok (none, none)
  | some contents =>
    match parse contents with
    | .ok tok => .ok (some tok, some contents)
    | .jsonDecodeError => .ok (none, none)
    | .typeError => .ok (none, none)
    | .validationError => .error ()

/-- `GithubCopilotClient.__init__` (copilot.py lines 92-98): fresh empty
fields, then `_load_cached_token`.  The abstract `cacheFile` component
holds the token the surviving cache file serialises, if any. -/
def clientInit (parse : String → CacheParse) (cacheRaw : Option String) :
    Except Unit ClientState :=
  match load_cached_token parse cacheRaw with
  | .error e => .error e
  | .ok (tok, _) =>
    .ok { oauth_token := none, copilot_token := tok, cacheFile := tok }

/-! ## Action template engine (`main.py`)

`subprocess.run` is modelled by an oracle `ex : List String → Int × String`
giving each command's exit code and captured standard output.  Python's
`str.replace` is embedded as `replaceChars` on character lists. -/

/-- Python's `str.replace` on character lists: replace the non-overlapping
occurrences of `pat` left to right.  (Python's behaviour for an empty
pattern — inserting `rep` at every position — is not modelled; every
pattern substituted by the code is non-empty.) -/
def replaceChars (s pat rep : List Char) : List Char :=
  match s with
  | [] => []
  | c :: cs =>
    if h : pat ≠ [] ∧ pat.isPrefixOf (c :: cs) then
      rep ++ replaceChars ((c :: cs).drop pat.length) pat rep
    else
      c :: replaceChars cs pat rep
termination_by s.length
decreasing_by
  · have hp : 0 < pat.length := List.length_pos.mpr h.1
    simp only [List.length_drop, List.length_cons]
    omega
  · simp only [List.length_cons]
    omega

/-- Python's `str.replace`. -/
def pyReplace (s pat rep : String) : String :=
  String.mk (replaceChars s.data pat.data rep.data)

/-- A `subprocess.CalledProcessError`: the failing command and its exit
code, raised by `subprocess.run(..., check=True)`. -/
structure CalledProcessError where
  returncode : Int
  cmd : List String
  deriving Repr, DecidableEq

/-- `run_command` (main.py lines 48-54): run the command; `check=True`
raises `CalledProcessError` on a non-zero exit code, otherwise the
captured standard output is available. -/
def run_command (ex : List String → Int × String) (cmd : List String) :
    Except CalledProcessError String :=
  let r := ex cmd
  if r.1 ≠ 0 then .error ⟨r.1, cmd⟩ else .ok r.2

/-- The loop of `process_action_commands` (main.py lines 122-130) over the
remaining `(key, cmd)` pairs, threading the prompt.  Returns the final
prompt (or the first `CalledProcessError`) together with the substituted
commands executed, in execution order. -/
def processGo (ex : List String → Int × String) (path : String) :
    List (String × List String) → String →
      Except CalledProcessError String × List (List String)
  | [], prompt => (.ok prompt, [])
  | (key, cmd) :: rest, prompt =>
    let cmd_with_path := cmd.map (fun c => pyReplace c "$path" path)
    match run_command ex cmd_with_path with
    | .error e => (.error e, [cmd_with_path])
    | .ok out =>
      let r := processGo ex path rest (pyReplace prompt ("$" ++ key) out)
      (r.1, cmd_with_path :: r.2)

/-- `process_action_commands` (main.py lines 111-132).  The `commands`
dict (insertion-ordered) is modelled as an association list; `None` and
the empty dict are falsy and leave the prompt untouched. -/
def process_action_commands (ex : List String → Int × String)
    (commands : Option (List (String × List String)))
    (base_prompt path : String) :
    Except CalledProcessError String × List (List String) :=
  match commands with
  | none => (.ok base_prompt, [])
  | some cmds =>
    if cmds.isEmpty then (.ok base_prompt, [])
    else processGo ex path cmds base_prompt

/-- The fields of an `Action` used by `main`'s action branch. -/
structure Action where
  prompt : String
  system_prompt : String
  model : Option String
  commands : Option (List (String × List String))
  deriving Repr, DecidableEq

/-- What `main`'s action branch (main.py lines 203-233) does with the
prompt: either the `except subprocess.CalledProcessError: return` path is
taken — the function returns before `handle_completion`, so no chat
request is made — or the fully substituted prompt reaches
`handle_completion`. -/
inductive ActionOutcome where
  | aborted : CalledProcessError → ActionOutcome
  | chatRequested : String → ActionOutcome
  deriving Repr, DecidableEq

/-- The base prompt of `main`'s action branch (main.py lines 206-209):
the action's template, plus the extra `--prompt` text if given. -/
def actionBasePrompt (action : Action) (argsPrompt : Option String) : String :=
  match argsPrompt with
  | some p => action.prompt ++ "\n" ++ p
  | none => action.prompt

/-- `main`'s action branch (main.py lines 203-233): build the base prompt,
run the template engine, and abort (before any network call) on
`CalledProcessError`. -/
def main_action_flow (ex : List String → Int × String) (action : Action)
    (argsPrompt : Option String) (path : String) : ActionOutcome :=
  match (process_action_commands ex action.commands
          (actionBasePrompt action argsPrompt) path).1 with
  | .error e => .aborted e
  | .ok p => .chatRequested p

/-! ## Characterisation of `str.replace`

Python's `s.replace(old, new)` equals `new.join(s.split(old))` for a
non-empty `old`.  `splitChars` is the spec-side splitting function used to
express that `replaceChars` substitutes at every non-overlapping
occurrence of the pattern, left to right. -/

/-- Split at every non-overlapping occurrence of `pat`, left to right
(Python's `s.split(pat)`). -/
def splitChars (s pat : List Char) : List (List Char) :=
  match s with
  | [] => [[]]
  | c :: cs =>
    if h : pat ≠ [] ∧ pat.isPrefixOf (c :: cs) then
      [] :: splitChars ((c :: cs).drop pat.length) pat
    else
      match splitChars cs pat with
      | [] => [[c]]
      | p :: ps => (c :: p) :: ps
termination_by s.length
decreasing_by
  · have hp : 0 < pat.length := List.length_pos.mpr h.1
    simp only [List.length_drop, List.length_cons]
    omega
  · simp only [List.length_cons]
    omega

/-- Interleave `sep` between the parts (Python's `sep.join(parts)`). -/
def joinSep (sep : List Char) : List (List Char) → List Char
  | [] => []
  | [x] => x
  | x :: y :: xs => x ++ sep ++ joinSep sep (y :: xs)

/-! ## Concrete data for witnesses and counterexamples -/

/-- A token expiring at epoch second 1000. -/
def validTok : CopilotToken :=
  { token := "valid-token", expires_at := 1000, refresh_in := 600,
    endpoints := [("api", "https://api.githubcopilot.com")],
    tracking_id := "tid", sku := "free",
    annotations_enabled := false, chat_enabled := true,
    chat_jetbrains_enabled := false, code_quote_enabled := false,
    codesearch := false, copilotignore_enabled := false,
    individual := true, prompt_8k := false,
    snippy_load_test_enabled := false, xcode := false, xcode_chat := false,
    public_suggestions := "enabled", telemetry := "enabled",
    enterprise_list := none, code_review_enabled := false }

/-- A token that expired at epoch second 50. -/
def expiredTok : CopilotToken :=
  { validTok with token := "expired-token", expires_at := 50 }

/-- A client holding a cached token valid until epoch second 1000. -/
def stCached : ClientState :=
  { oauth_token := none, copilot_token := some validTok, cacheFile := some validTok }

/-- A client with an in-memory OAuth token but no Copilot token. -/
def stEmpty : ClientState :=
  { oauth_token := some "oauth", copilot_token := none, cacheFile := none }

/-- A subprocess oracle whose first command's output mentions the second
command's placeholder. -/
def exChain : List String → Int × String := fun cmd =>
  if cmd = ["cmdA"] then (0, "X $b Y")
  else if cmd = ["cmdB"] then (0, "Z")
  else (1, "")

/-- A subprocess oracle that fails every command with exit code 1. -/
def exFail : List String → Int × String := fun _ => (1, "")

/-- A subprocess oracle for which `git diff` succeeds with output `"DIFF"`. -/
def exDiff : List String → Int × String := fun cmd =>
  if cmd = ["git", "diff"] then (0, "DIFF") else (1, "")

/-- A concrete action whose single command produces the diff placeholder. -/
def reviewAction : Action :=
  { prompt := "Review: $diff", system_prompt := "sys", model := none,
    commands := some [("diff", ["git", "diff"])] }

/-- A cache-parse oracle that fails with `json.JSONDecodeError` on
everything (the cache file holds broken JSON). -/
def wCacheParse : String → CacheParse := fun _ => .jsonDecodeError

end CopilotCLI

namespace CopilotCLI

/-! ## Lemmas about the stream decoder -/

theorem yieldOfChunk_content (chunk : StreamChunk) :
    (∀ s, yieldOfChunk chunk = some s → chunkContent chunk = s) ∧
    (yieldOfChunk chunk = none → chunkContent chunk = "") := by
  unfold yieldOfChunk chunkContent
  rcases chunk with ⟨choices⟩
  cases choices with
  | nil => simp
  | cons c rest =>
    cases c with
    | mk delta =>
      cases delta with
      | none => simp
      | some d =>
        cases hd : d.content with
        | none => simp [hd]
        | some s => by_cases hs : s = "" <;> simp [hd, hs]

/-- An empty line never starts with the event marker. -/
theorem isDataLine_empty : isDataLine "" = false := by decide

/-- On a list with no sentinel line, the decode loop never breaks: it yields
exactly the truthy delta contents of the data lines. -/
theorem streamDecode_no_done (parse : String → StreamChunk) :
    ∀ lines : List String, (∀ l ∈ lines, isDoneLine l = false) →
      streamDecode parse lines =
        (lines.filter (fun l => isDataLine l)).filterMap
          (fun l => yieldOfChunk (parse (strDrop l 6))) := by
  intro lines h
  induction lines with
  | nil => simp [streamDecode]
  | cons line rest ih =>
    have hline := h line (List.mem_cons_self line rest)
    have hrest : ∀ l ∈ rest, isDoneLine l = false :=
      fun l hl => h l (List.mem_cons_of_mem line hl)
    by_cases he : line = ""
    · subst he
      simp only [streamDecode, if_pos rfl]
      rw [ih hrest]
      simp [isDataLine_empty]
    · by_cases hd : strStartsWith line "data: "
      · have hnd : ¬ (strDrop line 6 = "[DONE]") := by
          intro hcontra
          rw [isDoneLine, hd, hcontra] at hline
          simp at hline
        simp only [streamDecode, if_neg he, if_pos hd, if_neg hnd]
        cases hy : yieldOfChunk (parse (strDrop line 6)) with
        | some content =>
          rw [ih hrest]
          simp [isDataLine, hd, List.filter_cons, List.filterMap_cons, hy]
        | none =>
          rw [ih hrest]
          simp [isDataLine, hd, List.filter_cons, List.filterMap_cons, hy]
      · simp only [streamDecode, if_neg he, if_neg hd]
        rw [ih hrest]
        simp [isDataLine, hd, List.filter_cons]

/-- Processing stops at the first sentinel line: trailing lines are never
inspected. -/
theorem streamDecode_stops (parse : String → StreamChunk)
    (pre post : List String) (h : ∀ l ∈ pre, isDoneLine l = false) :
    streamDecode parse (pre ++ "data: [DONE]" :: post) =
      streamDecode parse pre := by
  induction pre with
  | nil =>
    have h1 : ("data: [DONE]" : String) ≠ "" := by decide
    have h2 : strStartsWith "data: [DONE]" "data: " = true := by decide
    have h3 : strDrop "data: [DONE]" 6 = "[DONE]" := by decide
    simp [streamDecode, h1, h2, h3]
  | cons line rest ih =>
    have hline := h line (List.mem_cons_self line rest)
    have hrest : ∀ l ∈ rest, isDoneLine l = false :=
      fun l hl => h l (List.mem_cons_of_mem line hl)
    by_cases he : line = ""
    · subst he
      simp only [List.cons_append, streamDecode, if_pos rfl]
      exact ih hrest
    · by_cases hd : strStartsWith line "data: "
      · have hnd : ¬ (strDrop line 6 = "[DONE]") := by
          intro hcontra
          rw [isDoneLine, hd, hcontra] at hline
          simp at hline
        simp only [List.cons_append, streamDecode, if_neg he, if_pos hd, if_neg hnd]
        cases hy : yieldOfChunk (parse (strDrop line 6)) with
        | some content => simp [hy, ih hrest]
        | none => simp [hy, ih hrest]
      · simp only [List.cons_append, streamDecode, if_neg he, if_neg hd]
        exact ih hrest

/-- Dropping the `none`s of `yieldOfChunk` does not change the concatenation:
skipped chunks contribute the empty string. -/
theorem join_filterMap_yield (parse : String → StreamChunk) :
    ∀ lines : List String,
      joinFragments ((lines.filter (fun l => isDataLine l)).filterMap
          (fun l => yieldOfChunk (parse (strDrop l 6)))) =
        joinFragments ((lines.filter (fun l => isDataLine l)).map
          (fun l => chunkContent (parse (strDrop l 6)))) := by
  intro lines
  induction lines with
  | nil => simp
  | cons line rest ih =>
    by_cases hd : isDataLine line
    · rw [List.filter_cons_of_pos hd, List.filterMap_cons, List.map_cons]
      cases hy : yieldOfChunk (parse (strDrop line 6)) with
      | some content =>
        have hc := (yieldOfChunk_content (parse (strDrop line 6))).1 content hy
        simp only [joinFragments, hc, ih]
      | none =>
        have hc := (yieldOfChunk_content (parse (strDrop line 6))).2 hy
        simp only [joinFragments, hc, ih]
        simp
    · rw [List.filter_cons_of_neg (by simpa using hd)]
      exact ih

/-- A yielded fragment is never the empty string: the loop guards content
with a truthiness test before yielding. -/
theorem yieldOfChunk_some_ne_empty (chunk : StreamChunk) (s : String)
    (h : yieldOfChunk chunk = some s) : s ≠ "" := by
  unfold yieldOfChunk at h
  rcases chunk with ⟨choices⟩
  cases choices with
  | nil => simp at h
  | cons c cr =>
    cases hdel : c.delta with
    | none => simp [hdel] at h
    | some d =>
      cases hc : d.content with
      | none => simp [hdel, hc] at h
      | some content =>
        simp only [hdel, hc] at h
        split_ifs at h with he
        rw [Option.some_inj] at h
        subst h
        exact he

/-- Every member of the decoded fragment list is non-empty. -/
theorem streamDecode_mem_ne_empty (parse : String → StreamChunk) :
    ∀ lines s, s ∈ streamDecode parse lines → s ≠ "" := by
  intro lines
  induction lines with
  | nil => intro s hs; simp [streamDecode] at hs
  | cons line rest ih =>
    intro s hs
    by_cases he : line = ""
    · subst he
      simp only [streamDecode, if_pos rfl] at hs
      exact ih s hs
    · by_cases hd : strStartsWith line "data: "
      · simp only [streamDecode, if_neg he, if_pos hd] at hs
        by_cases hdone : strDrop line 6 = "[DONE]"
        · rw [if_pos hdone] at hs
          simp at hs
        · rw [if_neg hdone] at hs
          cases hy : yieldOfChunk (parse (strDrop line 6)) with
          | some content =>
            rw [hy] at hs
            rcases List.mem_cons.mp hs with h1 | h2
            · subst h1
              exact yieldOfChunk_some_ne_empty _ _ hy
            · exact ih s h2
          | none =>
            rw [hy] at hs
            exact ih s hs
      · simp only [streamDecode, if_neg he, if_neg hd] at hs
        exact ih s hs

/-- C1: in the streaming decode loop of `stream_chat_completion`, lines not
prefixed with the `"data: "` event marker are ignored, the `"[DONE]"`
sentinel ends the yielded sequence regardless of trailing lines after it,
and the yielded fragments are the truthy delta contents of the data lines in
stream order, so their concatenation equals the concatenation of the deltas'
contents. -/
theorem stream_decode_yields_delta_contents
    (parse : String → StreamChunk) (pre post : List String)
    (h : ∀ l ∈ pre, isDoneLine l = false) :
    streamDecode parse (pre ++ "data: [DONE]" :: post) =
      (pre.filter (fun l => isDataLine l)).filterMap
        (fun l => yieldOfChunk (parse (strDrop l 6)))
    ∧ joinFragments (streamDecode parse (pre ++ "data: [DONE]" :: post)) =
      joinFragments ((pre.filter (fun l => isDataLine l)).map
        (fun l => chunkContent (parse (strDrop l 6)))) := by
  constructor
  · rw [streamDecode_stops parse pre post h, streamDecode_no_done parse pre h]
  · rw [streamDecode_stops parse pre post h, streamDecode_no_done parse pre h,
      join_filterMap_yield]

theorem stream_decode_yields_delta_contents_witness :
    (∀ l ∈ (["junk", "", "data: a", "data: b"] : List String), isDoneLine l = false)
    ∧ (streamDecode wParse
          (["junk", "", "data: a", "data: b"] ++ "data: [DONE]" :: ["data: a"]) =
        ((["junk", "", "data: a", "data: b"] : List String).filter
            (fun l => isDataLine l)).filterMap
          (fun l => yieldOfChunk (wParse (strDrop l 6)))
      ∧ joinFragments (streamDecode wParse
          (["junk", "", "data: a", "data: b"] ++ "data: [DONE]" :: ["data: a"])) =
        joinFragments (((["junk", "", "data: a", "data: b"] : List String).filter
            (fun l => isDataLine l)).map
          (fun l => chunkContent (wParse (strDrop l 6))))) :=
  ⟨by decide, stream_decode_yields_delta_contents wParse
    ["junk", "", "data: a", "data: b"] ["data: a"] (by decide)⟩

/-- C8: every fragment yielded by the decode loop is a non-empty string;
chunks whose first choice lacks a delta, or whose delta content is absent,
null, or empty, yield nothing. -/
theorem stream_fragments_nonempty :
    (∀ (parse : String → StreamChunk) (lines : List String) (s : String),
        s ∈ streamDecode parse lines → s ≠ "")
    ∧ (∀ (chunk : StreamChunk) (c : StreamChoice) (crest : List StreamChoice),
        chunk.choices = c :: crest →
        (c.delta = none ∨ ∃ d, c.delta = some d ∧ (d.content = none ∨ d.content = some "")) →
        yieldOfChunk chunk = none) := by
  constructor
  · intro parse lines s hs
    exact streamDecode_mem_ne_empty parse lines s hs
  · intro chunk c crest hch hdeg
    unfold yieldOfChunk
    rw [hch]
    rcases hdeg with hnone | ⟨d, hd, hc⟩
    · simp [hnone]
    · rcases hc with hc | hc <;> simp [hd, hc]

theorem stream_fragments_nonempty_witness :
    ("Hello" ∈ streamDecode wParse ["data: a"]) ∧ "Hello" ≠ "" :=
  ⟨by decide, stream_fragments_nonempty.1 wParse ["data: a"] "Hello" (by decide)⟩

/-! ## Lemmas about `str.replace` -/

theorem splitChars_ne_nil : ∀ (s pat : List Char), splitChars s pat ≠ [] := by
  intro s pat
  induction s, pat using splitChars.induct with
  | case1 pat => unfold splitChars; simp
  | case2 pat c cs h ih =>
    unfold splitChars
    rw [dif_pos h]
    simp
  | case3 pat c cs h hnil ih =>
    unfold splitChars
    rw [dif_neg h, hnil]
    simp
  | case4 pat c cs h p ps hps ih =>
    unfold splitChars
    rw [dif_neg h, hps]
    simp

theorem joinSep_cons_cons (sep : List Char) (c : Char) (p : List Char)
    (ps : List (List Char)) :
    joinSep sep ((c :: p) :: ps) = c :: joinSep sep (p :: ps) := by
  cases ps with
  | nil => rfl
  | cons q qs => simp [joinSep]

/-- `replaceChars` substitutes `rep` at every non-overlapping occurrence of
the pattern: it is `joinSep` of the split parts. -/
theorem replaceChars_eq_joinSep_splitChars : ∀ (s pat rep : List Char),
    replaceChars s pat rep = joinSep rep (splitChars s pat) := by
  intro s pat
  induction s, pat using splitChars.induct with
  | case1 pat => intro rep; unfold replaceChars splitChars; rfl
  | case2 pat c cs h ih =>
    intro rep
    unfold replaceChars splitChars
    rw [dif_pos h, dif_pos h]
    obtain ⟨p, ps, hps⟩ : ∃ p ps,
        splitChars (List.drop pat.length (c :: cs)) pat = p :: ps := by
      cases hs : splitChars (List.drop pat.length (c :: cs)) pat with
      | nil => exact absurd hs (splitChars_ne_nil _ _)
      | cons p ps => exact ⟨p, ps, rfl⟩
    rw [ih rep, hps]
    simp [joinSep]
  | case3 pat c cs h hnil ih =>
    exact absurd hnil (splitChars_ne_nil _ _)
  | case4 pat c cs h p ps hps ih =>
    intro rep
    unfold replaceChars splitChars
    rw [dif_neg h, dif_neg h, hps, ih rep, hps, joinSep_cons_cons]

/-! ## Lemmas about the token exchange -/

/-- With a held token that is still valid, `_ensure_valid_token` does
nothing: no HTTP call, state unchanged. -/
theorem ensure_valid_token_cached (now : Int) (files : List HostsFile)
    (getResult : Except RequestException CopilotToken) (st : ClientState)
    (t : CopilotToken) (ht : st.copilot_token = some t)
    (hvalid : now < t.expires_at) :
    ensure_valid_token now files getResult st = (.ok st, []) := by
  have hneed : needsRefresh now st.copilot_token = false := by
    rw [ht]
    simp only [needsRefresh, decide_eq_false_iff_not, not_le]
    exact hvalid
  unfold ensure_valid_token
  rw [hneed]
  simp [ht]

/-- With an absent or expired token and a truthy in-memory OAuth token,
`_ensure_valid_token` performs exactly one exchange GET and, when the
exchange succeeds, stores the fresh token and overwrites the cache file
with it. -/
theorem ensure_valid_token_refreshes (now : Int) (files : List HostsFile)
    (newTok : CopilotToken) (st : ClientState) (tok : String)
    (hneed : needsRefresh now st.copilot_token = true)
    (hoauth : st.oauth_token = some tok) (htok : tok ≠ "") :
    ensure_valid_token now files (.ok newTok) st =
      (.ok { st with copilot_token := some newTok, cacheFile := some newTok },
       [.tokenGet]) := by
  rcases st with ⟨o, ct, cf⟩
  change o = some tok at hoauth
  change needsRefresh now ct = true at hneed
  subst hoauth
  unfold ensure_valid_token refresh_copilot_token get_oauth_token
  rw [hneed]
  simp [htok]

/-- C2: a cached token with `expires_at` strictly in the future is used
as-is — no network call, state (including the cache file) unchanged; an
absent or expired cached token triggers exactly one exchange GET whose
resulting token is stored and persisted to the cache file, overwriting
it. -/
theorem token_exchange_caching :
    (∀ (now : Int) (files : List HostsFile)
        (getResult : Except RequestException CopilotToken)
        (st : ClientState) (t : CopilotToken),
        st.copilot_token = some t → now < t.expires_at →
        ensure_valid_token now files getResult st = (.ok st, []))
    ∧ (∀ (now : Int) (files : List HostsFile) (newTok : CopilotToken)
        (st : ClientState) (tok : String),
        needsRefresh now st.copilot_token = true →
        st.oauth_token = some tok → tok ≠ "" →
        ensure_valid_token now files (.ok newTok) st =
          (.ok { st with copilot_token := some newTok, cacheFile := some newTok },
           [.tokenGet])) :=
  ⟨fun now files getResult st t ht hv =>
    ensure_valid_token_cached now files getResult st t ht hv,
   fun now files newTok st tok hneed hoauth htok =>
    ensure_valid_token_refreshes now files newTok st tok hneed hoauth htok⟩

theorem token_exchange_caching_witness :
    (stCached.copilot_token = some validTok ∧ (100 : Int) < validTok.expires_at ∧
      ensure_valid_token 100 [] (.error ⟨"network down"⟩) stCached = (.ok stCached, []))
    ∧ (needsRefresh 100 stEmpty.copilot_token = true ∧
        stEmpty.oauth_token = some "oauth" ∧ ("oauth" : String) ≠ "" ∧
        ensure_valid_token 100 [] (.ok validTok) stEmpty =
          (.ok { stEmpty with copilot_token := some validTok, cacheFile := some validTok },
           [.tokenGet])) :=
  ⟨⟨rfl, by decide,
    token_exchange_caching.1 100 [] (.error ⟨"network down"⟩) stCached validTok
      rfl (by decide)⟩,
   ⟨by decide, rfl, by decide,
    token_exchange_caching.2 100 [] validTok stEmpty "oauth"
      (by decide) rfl (by decide)⟩⟩

/-! ## Lemmas about the chat request traces -/

/-- A refresh performs no HTTP call (credentials missing) or exactly the
exchange GET. -/
theorem refresh_copilot_token_calls (files : List HostsFile)
    (getResult : Except RequestException CopilotToken) (st : ClientState) :
    (refresh_copilot_token files getResult st).2 = [] ∨
    (refresh_copilot_token files getResult st).2 = [HttpCall.tokenGet] := by
  unfold refresh_copilot_token
  cases hg : get_oauth_token files st with
  | error e => simp
  | ok p =>
    rcases p with ⟨tok, st1⟩
    cases getResult <;> simp

/-- `_ensure_valid_token` performs no HTTP call or exactly the exchange
GET — never a chat POST. -/
theorem ensure_valid_token_calls (now : Int) (files : List HostsFile)
    (getResult : Except RequestException CopilotToken) (st : ClientState) :
    (ensure_valid_token now files getResult st).2 = [] ∨
    (ensure_valid_token now files getResult st).2 = [HttpCall.tokenGet] := by
  unfold ensure_valid_token
  cases hneed : needsRefresh now st.copilot_token with
  | false =>
    cases st.copilot_token <;> simp
  | true =>
    rcases hr : refresh_copilot_token files getResult st with ⟨res, calls⟩
    have := refresh_copilot_token_calls files getResult st
    rw [hr] at this
    cases res with
    | error e => simpa [hr] using this
    | ok st1 =>
      cases hc : st1.copilot_token <;> simpa [hr, hc] using this

/-- The trace of `chat_completion`: first the token-exchange step's calls,
then — iff the exchange step succeeded — exactly one chat POST. -/
theorem chat_completion_calls (now : Int) (files : List HostsFile)
    (getResult : Except RequestException CopilotToken)
    (postResult : Except RequestException ChatResponse) (st : ClientState)
    (prompt mdl sys : String) :
    (chat_completion now files getResult postResult st prompt mdl sys).2 =
      (ensure_valid_token now files getResult st).2 ++
        (if exceptIsOk (ensure_valid_token now files getResult st).1 then
           [HttpCall.chatPost (mkChatBody prompt mdl sys false)]
         else []) := by
  unfold chat_completion
  rcases he : ensure_valid_token now files getResult st with ⟨res, calls⟩
  cases res with
  | error e => simp [exceptIsOk]
  | ok st1 =>
    cases postResult with
    | error e => simp [exceptIsOk]
    | ok resp => cases hc : resp.choices <;> simp [exceptIsOk, hc]

/-- The trace of `stream_chat_completion`: first the token-exchange step's
calls, then — iff the exchange step succeeded — exactly one chat POST. -/
theorem stream_chat_completion_calls (now : Int) (files : List HostsFile)
    (getResult : Except RequestException CopilotToken)
    (postResult : Except RequestException (List String))
    (parse : String → StreamChunk) (st : ClientState)
    (prompt mdl sys : String) :
    (stream_chat_completion now files getResult postResult parse st prompt mdl sys).2 =
      (ensure_valid_token now files getResult st).2 ++
        (if exceptIsOk (ensure_valid_token now files getResult st).1 then
           [HttpCall.chatPost (mkChatBody prompt mdl sys true)]
         else []) := by
  unfold stream_chat_completion
  rcases he : ensure_valid_token now files getResult st with ⟨res, calls⟩
  cases res with
  | error e => simp [exceptIsOk]
  | ok st1 =>
    cases postResult with
    | error e => simp [exceptIsOk]
    | ok lines => simp [exceptIsOk]

/-- C5: a non-streaming chat completion with a valid held token performs
exactly one POST; it returns the first choice's message content verbatim,
and a transport failure raises `APIError`; in every case at most one chat
POST is performed. -/
theorem chat_completion_round_trip :
    (∀ (now : Int) (files : List HostsFile)
        (getResult : Except RequestException CopilotToken)
        (st : ClientState) (t : CopilotToken)
        (prompt mdl sys : String) (c : ChatChoice) (crest : List ChatChoice),
        st.copilot_token = some t → now < t.expires_at →
        chat_completion now files getResult (.ok ⟨c :: crest⟩) st prompt mdl sys =
          (.ok c.message.content,
           [.chatPost (mkChatBody prompt mdl sys false)]))
    ∧ (∀ (now : Int) (files : List HostsFile)
        (getResult : Except RequestException CopilotToken)
        (st : ClientState) (t : CopilotToken)
        (prompt mdl sys : String) (e : RequestException),
        st.copilot_token = some t → now < t.expires_at →
        chat_completion now files getResult (.error e) st prompt mdl sys =
          (.error (.api ⟨"Chat completion request failed: " ++ e.msg⟩),
           [.chatPost (mkChatBody prompt mdl sys false)]))
    ∧ (∀ (now : Int) (files : List HostsFile)
        (getResult : Except RequestException CopilotToken)
        (postResult : Except RequestException ChatResponse)
        (st : ClientState) (prompt mdl sys : String),
        ((chat_completion now files getResult postResult st prompt mdl sys).2.filter
            (fun hc => isChatPost hc)) = []
        ∨ ((chat_completion now files getResult postResult st prompt mdl sys).2.filter
            (fun hc => isChatPost hc)) =
          [.chatPost (mkChatBody prompt mdl sys false)]) := by
  refine ⟨?_, ?_, ?_⟩
  · intro now files getResult st t prompt mdl sys c crest ht hv
    unfold chat_completion
    rw [ensure_valid_token_cached now files getResult st t ht hv]
    simp
  · intro now files getResult st t prompt mdl sys e ht hv
    unfold chat_completion
    rw [ensure_valid_token_cached now files getResult st t ht hv]
    simp
  · intro now files getResult postResult st prompt mdl sys
    rw [chat_completion_calls]
    have hens := ensure_valid_token_calls now files getResult st
    cases hok : exceptIsOk (ensure_valid_token now files getResult st).1 with
    | false =>
      left
      rcases hens with h2 | h2 <;> simp [h2, isChatPost]
    | true =>
      right
      rcases hens with h2 | h2 <;> simp [h2, isChatPost]

theorem chat_completion_round_trip_witness :
    (stCached.copilot_token = some validTok ∧ (100 : Int) < validTok.expires_at ∧
      chat_completion 100 [] (.error ⟨"unused"⟩)
          (.ok ⟨[⟨⟨"assistant", "Hello"⟩⟩]⟩) stCached "p" "m" "s" =
        (.ok (ChatChoice.mk ⟨"assistant", "Hello"⟩).message.content,
         [.chatPost (mkChatBody "p" "m" "s" false)]))
    ∧ (chat_completion 100 [] (.error ⟨"unused"⟩)
          (.error ⟨"boom"⟩) stCached "p" "m" "s" =
        (.error (.api ⟨"Chat completion request failed: " ++
            (RequestException.mk "boom").msg⟩),
         [.chatPost (mkChatBody "p" "m" "s" false)])) :=
  ⟨⟨rfl, by decide,
    chat_completion_round_trip.1 100 [] (.error ⟨"unused"⟩) stCached validTok
      "p" "m" "s" ⟨⟨"assistant", "Hello"⟩⟩ [] rfl (by decide)⟩,
   chat_completion_round_trip.2.1 100 [] (.error ⟨"unused"⟩) stCached validTok
      "p" "m" "s" ⟨"boom"⟩ rfl (by decide)⟩

/-! ## Token validity at chat time -/

/-- When the token-exchange step succeeds and every token the exchange can
return is unexpired, the state it leaves behind holds a token that is
valid at `now`. -/
theorem ensure_ok_token_valid (now : Int) (files : List HostsFile)
    (getResult : Except RequestException CopilotToken) (st st1 : ClientState)
    (calls : List HttpCall)
    (hget : ∀ tok, getResult = .ok tok → now < tok.expires_at)
    (h : ensure_valid_token now files getResult st = (.ok st1, calls)) :
    ∃ t, st1.copilot_token = some t ∧ now < t.expires_at := by
  unfold ensure_valid_token at h
  cases hneed : needsRefresh now st.copilot_token with
  | false =>
    rw [hneed] at h
    simp only [Bool.false_eq_true, if_false] at h
    cases hct : st.copilot_token with
    | none => rw [hct] at h; simp at h
    | some t =>
      rw [hct] at h
      simp only [Prod.mk.injEq, Except.ok.injEq] at h
      refine ⟨t, ?_, ?_⟩
      · rw [← h.1, hct]
      · rw [hct] at hneed
        simp only [needsRefresh, decide_eq_false_iff_not, not_le] at hneed
        exact hneed
  | true =>
    rw [hneed] at h
    simp only [if_true] at h
    unfold refresh_copilot_token at h
    cases hg : get_oauth_token files st with
    | error e => rw [hg] at h; simp at h
    | ok p =>
      rcases p with ⟨tk, stx⟩
      rw [hg] at h
      cases hgr : getResult with
      | error e => rw [hgr] at h; simp at h
      | ok newTok =>
        rw [hgr] at h
        simp only [Prod.mk.injEq, Except.ok.injEq] at h
        refine ⟨newTok, ?_, hget newTok hgr⟩
        rw [← h.1]

/-- C7 (amended): at most one API token is live in the client at any time;
a token passes the code's validity check iff the current time is strictly
less than its `expires_at`; every chat request (streaming or not) first
runs the token-exchange step and performs its chat POST only if that step
succeeded; and provided every token the exchange returns is unexpired,
the exchange step leaves the client holding a valid token, so every chat
request is issued while the held token is valid. -/
theorem chat_requests_and_token_validity :
    (∀ st : ClientState, st.copilot_token.toList.length ≤ 1)
    ∧ (∀ (now : Int) (t : CopilotToken),
        needsRefresh now (some t) = false ↔ now < t.expires_at)
    ∧ (∀ (now : Int) (files : List HostsFile)
        (getResult : Except RequestException CopilotToken)
        (st st1 : ClientState) (calls : List HttpCall),
        (∀ tok, getResult = .ok tok → now < tok.expires_at) →
        ensure_valid_token now files getResult st = (.ok st1, calls) →
        ∃ t, st1.copilot_token = some t ∧ now < t.expires_at)
    ∧ (∀ (now : Int) (files : List HostsFile)
        (getResult : Except RequestException CopilotToken)
        (postResult : Except RequestException ChatResponse)
        (st : ClientState) (prompt mdl sys : String),
        (chat_completion now files getResult postResult st prompt mdl sys).2 =
          (ensure_valid_token now files getResult st).2 ++
            (if exceptIsOk (ensure_valid_token now files getResult st).1 then
               [HttpCall.chatPost (mkChatBody prompt mdl sys false)] else []))
    ∧ (∀ (now : Int) (files : List HostsFile)
        (getResult : Except RequestException CopilotToken)
        (postResult : Except RequestException (List String))
        (parse : String → StreamChunk)
        (st : ClientState) (prompt mdl sys : String),
        (stream_chat_completion now files getResult postResult parse st prompt mdl sys).2 =
          (ensure_valid_token now files getResult st).2 ++
            (if exceptIsOk (ensure_valid_token now files getResult st).1 then
               [HttpCall.chatPost (mkChatBody prompt mdl sys true)] else [])) := by
  refine ⟨?_, ?_, ?_, ?_, ?_⟩
  · intro st
    cases st.copilot_token <;> simp
  · intro now t
    simp only [needsRefresh, decide_eq_false_iff_not, not_le]
  · intro now files getResult st st1 calls hget h
    exact ensure_ok_token_valid now files getResult st st1 calls hget h
  · intro now files getResult postResult st prompt mdl sys
    exact chat_completion_calls now files getResult postResult st prompt mdl sys
  · intro now files getResult postResult parse st prompt mdl sys
    exact stream_chat_completion_calls now files getResult postResult parse st prompt mdl sys

theorem chat_requests_and_token_validity_witness :
    (∀ tok, (Except.ok validTok : Except RequestException CopilotToken) = .ok tok →
      (100 : Int) < tok.expires_at)
    ∧ ensure_valid_token 100 [] (.ok validTok) stEmpty =
        (.ok { stEmpty with copilot_token := some validTok, cacheFile := some validTok },
         [.tokenGet])
    ∧ ∃ t, ({ stEmpty with copilot_token := some validTok, cacheFile := some validTok } : ClientState).copilot_token = some t ∧
        (100 : Int) < t.expires_at :=
  ⟨fun tok h => by rw [Except.ok.injEq] at h; rw [← h]; decide,
   by rfl,
   chat_requests_and_token_validity.2.2.1 100 [] (.ok validTok) stEmpty
     { stEmpty with copilot_token := some validTok, cacheFile := some validTok }
     [.tokenGet]
     (fun tok h => by rw [Except.ok.injEq] at h; rw [← h]; decide)
     (by rfl)⟩

/-- C7 counterexample: starting with no cached token, an exchange that
returns an already-expired token (expiry 50, current time 100) still
succeeds — the code only checks that a token object is present after the
refresh — and the chat POST is then issued while the held token fails the
validity test `now < expires_at`. -/
theorem chat_requests_use_valid_token_counterexample :
    ensure_valid_token 100 [] (.ok expiredTok) stEmpty =
      (.ok { stEmpty with copilot_token := some expiredTok, cacheFile := some expiredTok },
       [.tokenGet])
    ∧ (chat_completion 100 [] (.ok expiredTok)
        (.ok ⟨[⟨⟨"assistant", "Hello"⟩⟩]⟩) stEmpty "p" "m" "s").2 =
      [.tokenGet, .chatPost (mkChatBody "p" "m" "s" false)]
    ∧ ¬ (100 < expiredTok.expires_at) :=
  ⟨by rfl, by rfl, by decide⟩

/-! ## Credential failures -/

/-- `HostsData.from_file` returns `None` when no key of the object
contains `"github.com"`. -/
theorem from_file_no_github (hosts_data : List (String × Option String))
    (h : hosts_data.all (fun kv => !(strContains kv.1 "github.com")) = true) :
    from_file hosts_data = .ok none := by
  induction hosts_data with
  | nil => rfl
  | cons kv rest ih =>
    rw [List.all_cons, Bool.and_eq_true] at h
    rcases kv with ⟨key, value⟩
    unfold from_file
    rw [if_neg (by simpa using h.1)]
    exact ih h.2

/-- C6: when every present credentials file parses to a JSON object with no
key containing `"github.com"`, loading the OAuth token raises an
`AuthenticationError` (the "credentials missing" message, distinct from the
`APIError` used for a failed exchange), and a token refresh fails with that
`AuthenticationError` before attempting any HTTP call. -/
theorem missing_github_key_fails_auth (files : List HostsFile)
    (h : files.all parsedWithoutGithubKey = true) :
    load_oauth_token files =
      .error ⟨"OAuth token not found in GitHub Copilot configuration."⟩
    ∧ (∀ (getResult : Except RequestException CopilotToken) (st : ClientState),
        st.oauth_token = none →
        refresh_copilot_token files getResult st =
          (.error (.auth ⟨"OAuth token not found in GitHub Copilot configuration."⟩),
           [])) := by
  have hload : load_oauth_token files =
      .error ⟨"OAuth token not found in GitHub Copilot configuration."⟩ := by
    induction files with
    | nil => rfl
    | cons f rest ih =>
      rw [List.all_cons, Bool.and_eq_true] at h
      cases f with
      | absent => unfold load_oauth_token; exact ih h.2
      | unparsable => simp [parsedWithoutGithubKey] at h
      | parsed hosts_data =>
        unfold load_oauth_token
        simp only [from_file_no_github hosts_data
          (by simpa [parsedWithoutGithubKey] using h.1)]
        exact ih h.2
  refine ⟨hload, ?_⟩
  intro getResult st hoauth
  unfold refresh_copilot_token get_oauth_token
  rw [hoauth, hload]

theorem missing_github_key_fails_auth_witness :
    ([HostsFile.parsed [("example.com", some "tok")],
       HostsFile.absent].all parsedWithoutGithubKey = true)
    ∧ (load_oauth_token [HostsFile.parsed [("example.com", some "tok")], HostsFile.absent] =
        .error ⟨"OAuth token not found in GitHub Copilot configuration."⟩
      ∧ (∀ (getResult : Except RequestException CopilotToken) (st : ClientState),
          st.oauth_token = none →
          refresh_copilot_token [HostsFile.parsed [("example.com", some "tok")],
              HostsFile.absent] getResult st =
            (.error (.auth ⟨"OAuth token not found in GitHub Copilot configuration."⟩),
             []))) :=
  ⟨by decide,
   missing_github_key_fails_auth
     [HostsFile.parsed [("example.com", some "tok")], HostsFile.absent]
     (by decide)⟩

/-! ## Cache corruption recovery -/

/-- C10: a cache file that exists but fails to parse as JSON does not make
client construction raise: the file is deleted and the client starts with
no cached token, so the next chat request's token-exchange step refreshes
(performing the exchange GET). -/
theorem corrupt_cache_recovery :
    (∀ (parse : String → CacheParse) (contents : String),
        parse contents = .jsonDecodeError →
        load_cached_token parse (some contents) = .ok (none, none)
        ∧ clientInit parse (some contents) =
            .ok { oauth_token := none, copilot_token := none, cacheFile := none })
    ∧ (∀ now : Int, needsRefresh now none = true)
    ∧ (∀ (now : Int) (files : List HostsFile) (newTok : CopilotToken)
        (st : ClientState) (tok : String),
        st.copilot_token = none → st.oauth_token = some tok → tok ≠ "" →
        (ensure_valid_token now files (.ok newTok) st).2 = [HttpCall.tokenGet]) := by
  refine ⟨?_, ?_, ?_⟩
  · intro parse contents hp
    have h1 : load_cached_token parse (some contents) = .ok (none, none) := by
      unfold load_cached_token
      simp only [hp]
    refine ⟨h1, ?_⟩
    unfold clientInit
    rw [h1]
  · intro now
    rfl
  · intro now files newTok st tok hct hoauth htok
    rw [ensure_valid_token_refreshes now files newTok st tok
      (by rw [hct]; rfl) hoauth htok]

theorem corrupt_cache_recovery_witness :
    (wCacheParse "broken" = .jsonDecodeError
      ∧ (load_cached_token wCacheParse (some "broken") = .ok (none, none)
        ∧ clientInit wCacheParse (some "broken") =
            .ok { oauth_token := none, copilot_token := none, cacheFile := none }))
    ∧ (stEmpty.copilot_token = none ∧ stEmpty.oauth_token = some "oauth" ∧
        ("oauth" : String) ≠ "" ∧
        (ensure_valid_token 100 [] (.ok validTok) stEmpty).2 = [HttpCall.tokenGet]) :=
  ⟨⟨rfl, corrupt_cache_recovery.1 wCacheParse "broken" rfl⟩,
   ⟨rfl, rfl, by decide,
    corrupt_cache_recovery.2.2 100 [] validTok stEmpty "oauth" rfl rfl (by decide)⟩⟩

/-! ## Action template engine -/

/-- When every command exits 0, the loop substitutes each command's output
at its `$key` placeholder, left to right, and executes exactly the
`$path`-substituted commands in insertion order. -/
theorem processGo_all_zero (ex : List String → Int × String) (path : String) :
    ∀ (cmds : List (String × List String)) (prompt : String),
      (∀ kc ∈ cmds, (ex (kc.2.map (fun c => pyReplace c "$path" path))).1 = 0) →
      processGo ex path cmds prompt =
        (.ok (cmds.foldl (fun p kc =>
            pyReplace p ("$" ++ kc.1)
              (ex (kc.2.map (fun c => pyReplace c "$path" path))).2) prompt),
         cmds.map (fun kc => kc.2.map (fun c => pyReplace c "$path" path))) := by
  intro cmds
  induction cmds with
  | nil => intro prompt _; rfl
  | cons kc0 rest ih =>
    intro prompt h
    rcases kc0 with ⟨key, cmd⟩
    have h0 := h (key, cmd) (List.mem_cons_self _ _)
    simp only at h0
    simp only [processGo, run_command]
    rw [if_neg (by simp [h0])]
    simp only [ih (pyReplace prompt ("$" ++ key)
        (ex (cmd.map (fun c => pyReplace c "$path" path))).2)
      (fun kc hk => h kc (List.mem_cons_of_mem _ hk))]
    simp

/-- C3: for an action with configured commands, each command is run with
every `$path` occurrence replaced by the path, the commands execute
synchronously in insertion order, and each command's captured standard
output is substituted into the prompt at the matching `$key` placeholder;
in particular the action `{"diff": ["git","diff"]}` with prompt
`"Review: $diff"` yields `"Review: "` followed by the captured diff
output. -/
theorem action_template_substitution :
    (∀ (ex : List String → Int × String) (cmds : List (String × List String))
        (prompt path : String),
        (∀ kc ∈ cmds, (ex (kc.2.map (fun c => pyReplace c "$path" path))).1 = 0) →
        process_action_commands ex (some cmds) prompt path =
          (.ok (cmds.foldl (fun p kc =>
              pyReplace p ("$" ++ kc.1)
                (ex (kc.2.map (fun c => pyReplace c "$path" path))).2) prompt),
           cmds.map (fun kc => kc.2.map (fun c => pyReplace c "$path" path))))
    ∧ (∀ (ex : List String → Int × String) (out path : String),
        ex ["git", "diff"] = (0, out) →
        (process_action_commands ex (some [("diff", ["git", "diff"])])
            "Review: $diff" path).1 = .ok ("Review: " ++ out)) := by
  constructor
  · intro ex cmds prompt path h
    cases cmds with
    | nil => rfl
    | cons kc0 rest =>
      have hgo := processGo_all_zero ex path (kc0 :: rest) prompt h
      simpa [process_action_commands] using hgo
  · intro ex out path hex
    have hgit : pyReplace "git" "$path" path = "git" := by
      simp [pyReplace, replaceChars]
    have hdiff : pyReplace "diff" "$path" path = "diff" := by
      simp [pyReplace, replaceChars]
    have hrev : pyReplace "Review: $diff" "$diff" out = "Review: " ++ out := by
      simp [pyReplace, replaceChars]
      rcases out with ⟨od⟩
      simp [String.mk]
      rfl
    simp only [process_action_commands, processGo, run_command, List.map_cons,
      List.map_nil, hgit, hdiff, hex, List.isEmpty_cons]
    simp [hrev]

theorem action_template_substitution_witness :
    exDiff ["git", "diff"] = (0, "DIFF")
    ∧ (process_action_commands exDiff (some [("diff", ["git", "diff"])])
        "Review: $diff" ".").1 = .ok ("Review: " ++ "DIFF") :=
  ⟨rfl, action_template_substitution.2 exDiff "DIFF" "." rfl⟩

/-- If any configured command's `$path`-substituted form exits non-zero,
the loop raises a `CalledProcessError`. -/
theorem processGo_fails (ex : List String → Int × String) (path : String) :
    ∀ (cmds : List (String × List String)) (prompt : String),
      (∃ kc ∈ cmds, (ex (kc.2.map (fun c => pyReplace c "$path" path))).1 ≠ 0) →
      ∃ e, (processGo ex path cmds prompt).1 = .error e := by
  intro cmds
  induction cmds with
  | nil =>
    intro prompt h
    rcases h with ⟨kc, hm, _⟩
    simp at hm
  | cons kc0 rest ih =>
    intro prompt h
    rcases kc0 with ⟨key, cmd⟩
    by_cases h0 : (ex (cmd.map (fun c => pyReplace c "$path" path))).1 = 0
    · rcases h with ⟨kc, hm, hne⟩
      rcases List.mem_cons.mp hm with heq | hm'
      · subst heq
        simp only at hne
        exact absurd h0 hne
      · obtain ⟨e, he⟩ := ih
          (pyReplace prompt ("$" ++ key)
            (ex (cmd.map (fun c => pyReplace c "$path" path))).2)
          ⟨kc, hm', hne⟩
        refine ⟨e, ?_⟩
        simp only [processGo, run_command]
        rw [if_neg (by simp [h0])]
        simpa using he
    · refine ⟨⟨(ex (cmd.map (fun c => pyReplace c "$path" path))).1,
        cmd.map (fun c => pyReplace c "$path" path)⟩, ?_⟩
      simp only [processGo, run_command]
      rw [if_pos h0]

/-- C4: a template-substitution shell command exiting non-zero makes the
whole action fail with the subprocess error: `process_action_commands`
raises, `main` takes its early-return path before `handle_completion`, so
no chat request is made and no partially substituted prompt is used
downstream. -/
theorem command_failure_aborts
    (ex : List String → Int × String) (action : Action)
    (argsPrompt : Option String) (path : String)
    (cmds : List (String × List String))
    (hc : action.commands = some cmds)
    (hfail : ∃ kc ∈ cmds, (ex (kc.2.map (fun c => pyReplace c "$path" path))).1 ≠ 0) :
    ∃ e, (process_action_commands ex action.commands
            (actionBasePrompt action argsPrompt) path).1 = .error e
      ∧ main_action_flow ex action argsPrompt path = .aborted e := by
  have hne : cmds ≠ [] := by
    rcases hfail with ⟨kc, hm, _⟩
    intro hnil
    subst hnil
    simp at hm
  obtain ⟨e, he⟩ := processGo_fails ex path cmds
    (actionBasePrompt action argsPrompt) hfail
  have hp : (process_action_commands ex action.commands
      (actionBasePrompt action argsPrompt) path).1 = .error e := by
    rw [hc]
    have hie : cmds.isEmpty = false := by
      simpa [List.isEmpty_iff] using hne
    simp only [process_action_commands, hie, Bool.false_eq_true, if_false]
    exact he
  refine ⟨e, hp, ?_⟩
  unfold main_action_flow
  rw [hp]

theorem command_failure_aborts_witness :
    reviewAction.commands = some [("diff", ["git", "diff"])]
    ∧ (∃ kc ∈ [("diff", ["git", "diff"])],
        (exFail (kc.2.map (fun c => pyReplace c "$path" "."))).1 ≠ 0)
    ∧ ∃ e, (process_action_commands exFail reviewAction.commands
              (actionBasePrompt reviewAction none) ".").1 = .error e
        ∧ main_action_flow exFail reviewAction none "." = .aborted e :=
  ⟨rfl,
   ⟨("diff", ["git", "diff"]), by simp, by simp [exFail]⟩,
   command_failure_aborts exFail reviewAction none "." [("diff", ["git", "diff"])]
     rfl ⟨("diff", ["git", "diff"]), by simp, by simp [exFail]⟩⟩

/-- C9: placeholder substitution replaces every non-overlapping occurrence
of `$key` in the current prompt (`str.replace` is join-of-split, and a
two-occurrence prompt is fully substituted), and because commands are
substituted sequentially in insertion order, a later command's `$key`
placeholder introduced into the prompt by an earlier command's output is
substituted as well. -/
theorem placeholder_substitution_global_and_sequential :
    (∀ s pat rep : String,
        (pyReplace s pat rep).data = joinSep rep.data (splitChars s.data pat.data))
    ∧ pyReplace "$k x $k" "$k" "v" = "v x v"
    ∧ (process_action_commands exChain (some [("a", ["cmdA"]), ("b", ["cmdB"])])
        "$a" ".").1 = .ok "X Z Y" := by
  refine ⟨?_, ?_, ?_⟩
  · intro s pat rep
    exact replaceChars_eq_joinSep_splitChars s.data pat.data rep.data
  · simp [pyReplace, replaceChars]
  · have ha : pyReplace "cmdA" "$path" "." = "cmdA" := by
      simp [pyReplace, replaceChars]
    have hb : pyReplace "cmdB" "$path" "." = "cmdB" := by
      simp [pyReplace, replaceChars]
    have h1 : pyReplace "$a" "$a" "X $b Y" = "X $b Y" := by
      simp [pyReplace, replaceChars]
    have h2 : pyReplace "X $b Y" "$b" "Z" = "X Z Y" := by
      simp [pyReplace, replaceChars]
    simp only [process_action_commands, processGo, run_command, List.map_cons,
      List.map_nil, ha, hb, List.isEmpty_cons]
    simp [exChain, h1, h2]

end CopilotCLI
